import Mathlib

/-!
Verification of `strawberryfields/apps/points.py`.

The module has two functions:

* `rbf_kernel(R, sigma) = np.exp(-(scipy.spatial.distance.cdist(R, R)) ** 2 / 2 / sigma ** 2)`,
  where `cdist` computes the pairwise Euclidean distance matrix.  We embed a
  coordinate matrix as a list of rows (each a list of reals) and translate the
  expression literally: the Euclidean distance is a square root of a sum of
  squared coordinate differences, and the kernel entry applies `Real.exp` to
  the negated squared distance divided by `2` and then by `sigma ^ 2`, in the
  same association as the Python expression.

* `sample(K, n_mean, n_samples)`, which calls the external routines
  `rescale_adjacency_matrix_thermal` and `generate_thermal_samples` from the
  third-party library `thewalrus` and converts the result to a nested list of
  integers.  The external routines are not part of this repository; they are
  abstracted as fallible functions (parameters of the embedding), and the
  guarantees the specification attributes to them are taken as hypotheses.
-/

namespace Points

/-- The list of squared coordinate differences between two points,
`[(x₀ - y₀)², (x₁ - y₁)², …]`.  This is the summand list inside the
Euclidean distance computed by `scipy.spatial.distance.cdist`. -/
def sqdiffs (x y : List ℝ) : List ℝ :=
  List.zipWith (fun a b => (a - b) ^ 2) x y

/-- Euclidean distance between two points, as computed by
`scipy.spatial.distance.cdist` with its default metric. -/
noncomputable def euclid (x y : List ℝ) : ℝ :=
  Real.sqrt (sqdiffs x y).sum

/-- Embedding of `rbf_kernel` from `points.py`:
`np.exp(-(scipy.spatial.distance.cdist(R, R)) ** 2 / 2 / sigma ** 2)`.
Row `i`, column `j` of the result is
`Real.exp (-(euclid rᵢ rⱼ) ^ 2 / 2 / sigma ^ 2)`, matching the elementwise
numpy expression (negation, then squaring of the distance, then division by
`2`, then division by `sigma ** 2`). -/
noncomputable def rbf_kernel (R : List (List ℝ)) (sigma : ℝ) : List (List ℝ) :=
  R.map fun ri => R.map fun rj => Real.exp (-(euclid ri rj) ^ 2 / 2 / sigma ^ 2)

/-- Entry `(i, j)` of a matrix stored as a list of rows (with default `0`
outside the bounds). -/
noncomputable def entry (M : List (List ℝ)) (i j : ℕ) : ℝ :=
  (M.getD i []).getD j 0

/-- The kernel-entry formula as the specification words it: entry `(i, j)`
equals `exp (−d(i,j)² / (2·σ²))` where `d` is the Euclidean distance.
Stated separately from `rbf_kernel` (whose denominator is associated as in
the Python source) so that the two can be compared. -/
noncomputable def rbfEntrySpec (x y : List ℝ) (sigma : ℝ) : ℝ :=
  Real.exp (-(euclid x y) ^ 2 / (2 * sigma ^ 2))

lemma sqdiffs_comm (x y : List ℝ) : sqdiffs x y = sqdiffs y x := by
  induction x generalizing y with
  | nil => cases y <;> simp [sqdiffs]
  | cons a x ih =>
    cases y with
    | nil => simp [sqdiffs]
    | cons b y =>
      simp only [sqdiffs, List.zipWith_cons_cons] at *
      refine congrArg₂ _ (by ring) (ih y)

lemma sqdiffs_sum_nonneg (x y : List ℝ) : 0 ≤ (sqdiffs x y).sum := by
  induction x generalizing y with
  | nil => simp [sqdiffs]
  | cons a x ih =>
    cases y with
    | nil => simp [sqdiffs]
    | cons b y =>
      simp only [sqdiffs, List.zipWith_cons_cons, List.sum_cons] at *
      have := ih y
      positivity

lemma sqdiffs_self_sum (x : List ℝ) : (sqdiffs x x).sum = 0 := by
  induction x with
  | nil => simp [sqdiffs]
  | cons a x ih =>
    simp only [sqdiffs, List.zipWith_cons_cons, List.sum_cons] at *
    simp [ih]

lemma euclid_sq (x y : List ℝ) : euclid x y ^ 2 = (sqdiffs x y).sum := by
  simpa [euclid] using Real.sq_sqrt (sqdiffs_sum_nonneg x y)

lemma euclid_comm (x y : List ℝ) : euclid x y = euclid y x := by
  simp [euclid, sqdiffs_comm x y]

lemma rbf_kernel_length (R : List (List ℝ)) (sigma : ℝ) :
    (rbf_kernel R sigma).length = R.length := by
  simp [rbf_kernel]

lemma entry_rbf (R : List (List ℝ)) (sigma : ℝ) (i j : ℕ)
    (hi : i < R.length) (hj : j < R.length) :
    entry (rbf_kernel R sigma) i j =
      Real.exp (-(euclid (R.getD i []) (R.getD j [])) ^ 2 / 2 / sigma ^ 2) := by
  simp [entry, rbf_kernel, List.getD_eq_getElem?_getD, List.getElem?_map,
    List.getElem?_eq_getElem hi, List.getElem?_eq_getElem hj]

/-- Embedding of `sample` from `points.py`.  The external library primitives
are modelled from the spec: `rescale` stands for
`thewalrus.csamples.rescale_adjacency_matrix_thermal` ("one that rescales a
kernel matrix given a target mean count into sampler-ready parameters") and
`generate` stands for `thewalrus.csamples.generate_thermal_samples` ("one that
generates a requested number of random integer-count samples from those
parameters"); both live outside this repository, so they are parameters of
the embedding, fallible with an arbitrary error type.  `sample` itself is the
glue of `points.py`: it forwards the kernel and mean count to `rescale`,
passes the resulting pair `(ls, O)` and the requested count to `generate`,
and converts the result to a nested list of integers (the
`np.array(...).tolist()` step, the identity in this model).  Any raised
error propagates, as an uncaught exception does in the source. -/
def sample {ε : Type}
    (rescale : List (List ℝ) → ℝ → Except ε (List ℝ × List (List ℝ)))
    (generate : List ℝ → List (List ℝ) → ℕ → Except ε (List (List ℤ)))
    (K : List (List ℝ)) (n_mean : ℝ) (n_samples : ℕ) :
    Except ε (List (List ℤ)) :=
  match rescale K n_mean with
  | Except.error e => Except.error e
  | Except.ok (ls, O) => generate ls O n_samples

/-- A trivial stand-in for the external rescaling routine, used to witness
the conditional theorems about `sample`: it always succeeds and returns the
kernel itself as the sampler-ready matrix. -/
def rescaleOk : List (List ℝ) → ℝ → Except ℕ (List ℝ × List (List ℝ)) :=
  fun K _ => Except.ok ([], K)

/-- A trivial stand-in for the external sample generator, used to witness the
conditional theorems about `sample`: it returns the requested number of
all-zero count vectors of the matrix dimension. -/
def generateZeros : List ℝ → List (List ℝ) → ℕ → Except ℕ (List (List ℤ)) :=
  fun _ O n => Except.ok (List.replicate n (List.replicate O.length 0))

/-- A stand-in for the external rescaling routine that always fails, used to
witness error propagation through `sample`. -/
def rescaleErr : List (List ℝ) → ℝ → Except ℕ (List ℝ × List (List ℝ)) :=
  fun _ _ => Except.error 7

/-- C1: for every coordinate matrix `R` of `N` points and every positive
bandwidth `sigma`, `rbf_kernel R sigma` is an `N×N` matrix whose entry
`(i, j)` equals `exp (−d(i,j)² / (2·sigma²))`, where `d(i,j)` is the
Euclidean distance between points `i` and `j` of `R`. -/
theorem rbf_kernel_matches_spec (R : List (List ℝ)) (sigma : ℝ) (h : 0 < sigma) :
    (rbf_kernel R sigma).length = R.length ∧
    (∀ row ∈ rbf_kernel R sigma, row.length = R.length) ∧
    ∀ i j, i < R.length → j < R.length →
      entry (rbf_kernel R sigma) i j = rbfEntrySpec (R.getD i []) (R.getD j []) sigma := by
  refine ⟨rbf_kernel_length R sigma, ?_, ?_⟩
  · intro row hrow
    simp only [rbf_kernel, List.mem_map] at hrow
    rcases hrow with ⟨ri, _, rfl⟩
    simp
  · intro i j hi hj
    rw [entry_rbf R sigma i j hi hj, rbfEntrySpec, div_div]

/-- Witness for C1 at `R = [[0], [1]]`, `sigma = 1`. -/
theorem rbf_kernel_matches_spec_witness :
    entry (rbf_kernel [[0], [1]] 1) 0 1 = rbfEntrySpec [0] [1] 1 := by
  have h := (rbf_kernel_matches_spec [[0], [1]] 1 (by norm_num)).2.2 0 1
    (by simp) (by simp)
  simpa using h

/-- C2: whenever the external routines obey the contract the specification
gives them (the rescaled matrix has the kernel's dimension, and the generator
returns the requested number of samples, each of the matrix's dimension),
`sample K n_mean n` returns a batch of exactly `n` samples, each of length
equal to the kernel's dimension. -/
theorem sample_shape {ε : Type}
    (rescale : List (List ℝ) → ℝ → Except ε (List ℝ × List (List ℝ)))
    (generate : List ℝ → List (List ℝ) → ℕ → Except ε (List (List ℤ)))
    (hres : ∀ K n_mean ls O, rescale K n_mean = Except.ok (ls, O) →
      O.length = K.length)
    (hgen : ∀ ls O n r, generate ls O n = Except.ok r →
      r.length = n ∧ ∀ s ∈ r, s.length = O.length)
    (K : List (List ℝ)) (n_mean : ℝ) (n : ℕ) (batch : List (List ℤ))
    (h : sample rescale generate K n_mean n = Except.ok batch) :
    batch.length = n ∧ ∀ s ∈ batch, s.length = K.length := by
  cases hr : rescale K n_mean with
  | error e => simp [sample, hr] at h
  | ok p =>
    obtain ⟨ls, O⟩ := p
    simp only [sample, hr] at h
    rcases hgen ls O n batch h with ⟨h1, h2⟩
    exact ⟨h1, fun s hs => (h2 s hs).trans (hres K n_mean ls O hr)⟩

/-- Witness for C2: stand-in external routines satisfying the contract, at
`K = [[1]]`, two requested samples. -/
theorem sample_shape_witness :
    (List.replicate 2 [(0 : ℤ)]).length = 2 ∧
      ∀ s ∈ List.replicate 2 [(0 : ℤ)],
        s.length = ([[(1 : ℝ)]] : List (List ℝ)).length := by
  refine sample_shape rescaleOk generateZeros ?_ ?_ [[1]] 1 2
    (List.replicate 2 [0]) ?_
  · intro K n_mean ls O hKO
    simp only [rescaleOk, Except.ok.injEq, Prod.mk.injEq] at hKO
    rw [← hKO.2]
  · intro ls O n r hr
    simp only [generateZeros, Except.ok.injEq] at hr
    subst hr
    refine ⟨by simp, ?_⟩
    intro s hs
    rw [List.eq_of_mem_replicate hs]
    simp
  · rfl

/-- C3: for every coordinate matrix and every positive bandwidth, the kernel
matrix is symmetric: entry `(i, j)` equals entry `(j, i)`. -/
theorem rbf_kernel_symm (R : List (List ℝ)) (sigma : ℝ) (h : 0 < sigma)
    (i j : ℕ) (hi : i < R.length) (hj : j < R.length) :
    entry (rbf_kernel R sigma) i j = entry (rbf_kernel R sigma) j i := by
  rw [entry_rbf R sigma i j hi hj, entry_rbf R sigma j i hj hi,
    euclid_comm (R.getD i []) (R.getD j [])]

/-- Witness for C3 at `R = [[0], [1]]`, `sigma = 1`, `(i, j) = (0, 1)`. -/
theorem rbf_kernel_symm_witness :
    entry (rbf_kernel [[0], [1]] 1) 0 1 = entry (rbf_kernel [[0], [1]] 1) 1 0 :=
  rbf_kernel_symm [[0], [1]] 1 (by norm_num) 0 1 (by simp) (by simp)

/-- C4: for every coordinate matrix and every positive bandwidth, every
diagonal entry of the kernel matrix equals `1`. -/
theorem rbf_kernel_diag_one (R : List (List ℝ)) (sigma : ℝ) (h : 0 < sigma)
    (i : ℕ) (hi : i < R.length) :
    entry (rbf_kernel R sigma) i i = 1 := by
  rw [entry_rbf R sigma i i hi hi, euclid, sqdiffs_self_sum, Real.sqrt_zero]
  simp

/-- Witness for C4 at `R = [[0], [1]]`, `sigma = 1`, `i = 1`. -/
theorem rbf_kernel_diag_one_witness :
    entry (rbf_kernel [[0], [1]] 1) 1 1 = 1 :=
  rbf_kernel_diag_one [[0], [1]] 1 (by norm_num) 1 (by simp)

/-- C5: for every coordinate matrix and every positive bandwidth, every
entry of the kernel matrix is strictly positive and at most `1`. -/
theorem rbf_kernel_entry_mem_Ioc (R : List (List ℝ)) (sigma : ℝ) (h : 0 < sigma)
    (i j : ℕ) (hi : i < R.length) (hj : j < R.length) :
    0 < entry (rbf_kernel R sigma) i j ∧ entry (rbf_kernel R sigma) i j ≤ 1 := by
  rw [entry_rbf R sigma i j hi hj]
  refine ⟨Real.exp_pos _, ?_⟩
  rw [Real.exp_le_one_iff, div_div]
  refine div_nonpos_iff.mpr (Or.inr ⟨?_, ?_⟩)
  · simpa using sq_nonneg (euclid (R.getD i []) (R.getD j []))
  · positivity

/-- Witness for C5 at `R = [[0], [1]]`, `sigma = 1`, `(i, j) = (0, 1)`. -/
theorem rbf_kernel_entry_mem_Ioc_witness :
    0 < entry (rbf_kernel [[0], [1]] 1) 0 1 ∧
      entry (rbf_kernel [[0], [1]] 1) 0 1 ≤ 1 :=
  rbf_kernel_entry_mem_Ioc [[0], [1]] 1 (by norm_num) 0 1 (by simp) (by simp)

/-- C6: for `R = [[0,1],[1,0],[0,0],[1,1]]` and bandwidth `1`, the kernel
has entry `(0, 1)` equal to `e⁻¹` and entry `(0, 2)` equal to `e^(−1/2)`. -/
theorem rbf_kernel_example :
    entry (rbf_kernel [[0, 1], [1, 0], [0, 0], [1, 1]] 1) 0 1 = Real.exp (-1) ∧
      entry (rbf_kernel [[0, 1], [1, 0], [0, 0], [1, 1]] 1) 0 2 =
        Real.exp (-(1 / 2)) := by
  have h01 := entry_rbf [[0, 1], [1, 0], [0, 0], [1, 1]] 1 0 1 (by simp) (by simp)
  have h02 := entry_rbf [[0, 1], [1, 0], [0, 0], [1, 1]] 1 0 2 (by simp) (by simp)
  constructor
  · rw [h01]
    have hsq : euclid ([0, 1] : List ℝ) [1, 0] ^ 2 = 2 := by
      rw [euclid_sq]
      norm_num [sqdiffs]
    norm_num [hsq]
  · rw [h02]
    have hsq : euclid ([0, 1] : List ℝ) [0, 0] ^ 2 = 1 := by
      rw [euclid_sq]
      norm_num [sqdiffs]
    norm_num [hsq]

/-- C7: every element of every sample in a batch returned by `sample` is a
non-negative integer (given the external generator's spec-stated contract
that it produces integer count vectors with non-negative entries). -/
theorem sample_entries_nonneg {ε : Type}
    (rescale : List (List ℝ) → ℝ → Except ε (List ℝ × List (List ℝ)))
    (generate : List ℝ → List (List ℝ) → ℕ → Except ε (List (List ℤ)))
    (hgen : ∀ ls O n r, generate ls O n = Except.ok r →
      ∀ s ∈ r, ∀ x ∈ s, 0 ≤ x)
    (K : List (List ℝ)) (n_mean : ℝ) (n : ℕ) (batch : List (List ℤ))
    (h : sample rescale generate K n_mean n = Except.ok batch) :
    ∀ s ∈ batch, ∀ x ∈ s, 0 ≤ x := by
  cases hr : rescale K n_mean with
  | error e => simp [sample, hr] at h
  | ok p =>
    obtain ⟨ls, O⟩ := p
    simp only [sample, hr] at h
    exact hgen ls O n batch h

/-- Witness for C7: with the all-zero stand-in generator at `K = [[1]]`, the
batch is `[[0], [0]]`, its first sample is `[0]`, and the theorem applied to
its element `0` yields that element's non-negativity. -/
theorem sample_entries_nonneg_witness : (0 : ℤ) ≤ 0 :=
  sample_entries_nonneg rescaleOk generateZeros
    (by
      intro ls O n r hr s hs x hx
      simp only [generateZeros, Except.ok.injEq] at hr
      subst hr
      rw [List.eq_of_mem_replicate hs] at hx
      rw [List.eq_of_mem_replicate hx])
    [[1]] 1 2 (List.replicate 2 [0]) rfl [0] (by simp) 0 (by simp)

/-- C8: `sample` performs no validation of its own: an error from the
external rescaling routine, or from the external generator, is returned to
the caller unchanged, and when both external routines succeed `sample`
succeeds with the generator's batch. -/
theorem sample_propagates_errors {ε : Type}
    (rescale : List (List ℝ) → ℝ → Except ε (List ℝ × List (List ℝ)))
    (generate : List ℝ → List (List ℝ) → ℕ → Except ε (List (List ℤ)))
    (K : List (List ℝ)) (n_mean : ℝ) (n : ℕ) :
    (∀ e, rescale K n_mean = Except.error e →
        sample rescale generate K n_mean n = Except.error e) ∧
    (∀ ls O, rescale K n_mean = Except.ok (ls, O) →
      (∀ e, generate ls O n = Except.error e →
          sample rescale generate K n_mean n = Except.error e) ∧
      (∀ r, generate ls O n = Except.ok r →
          sample rescale generate K n_mean n = Except.ok r)) := by
  refine ⟨?_, ?_⟩
  · intro e he
    simp [sample, he]
  · intro ls O hok
    refine ⟨?_, ?_⟩
    · intro e he
      simp [sample, hok, he]
    · intro r hr
      simp [sample, hok, hr]

/-- Witness for C8: with a failing stand-in rescaler, `sample` returns the
rescaler's error unchanged. -/
theorem sample_propagates_errors_witness :
    sample rescaleErr generateZeros [[1]] 1 3 = Except.error 7 :=
  (sample_propagates_errors rescaleErr generateZeros [[1]] 1 3).1 7 rfl

/-- C9: negating a nonzero bandwidth leaves the kernel unchanged, because
only the square of the bandwidth enters the formula. -/
theorem rbf_kernel_neg_sigma (R : List (List ℝ)) (sigma : ℝ) (h : sigma ≠ 0) :
    rbf_kernel R (-sigma) = rbf_kernel R sigma := by
  simp only [rbf_kernel, neg_sq]

/-- Witness for C9 at `R = [[0], [1]]`, `sigma = 1`. -/
theorem rbf_kernel_neg_sigma_witness :
    rbf_kernel [[0], [1]] (-1) = rbf_kernel [[0], [1]] 1 :=
  rbf_kernel_neg_sigma [[0], [1]] 1 (by norm_num)

/-- C10: the empty coordinate matrix (zero points) yields the empty `0×0`
kernel matrix, with no failure. -/
theorem rbf_kernel_empty (sigma : ℝ) (h : 0 < sigma) :
    rbf_kernel [] sigma = [] := rfl

/-- Witness for C10 at `sigma = 1`. -/
theorem rbf_kernel_empty_witness : rbf_kernel [] 1 = [] :=
  rbf_kernel_empty 1 (by norm_num)

end Points
